import Mathlib

set_option maxRecDepth 100000

/-!
Shallow embedding of the AI Discussion Flow Optimizer moderation engine
(`DiscussionEngine.ts`): the dominance scorer and the phased moderation
state machine.  JavaScript numbers are modelled as exact rationals (`ℚ`);
the JS `Record<string, number>` talk-time map is modelled as an
association list whose update/delete operations mirror the spread and
`delete` idioms of the source.  JS truthiness of `activeSpeaker`
(null and the empty string are falsy) is modelled explicitly.
-/

namespace DiscussionFlow

/-- The six phases of `DiscussionState` in `types.ts`. -/
inductive DiscussionState where
  | MONITORING
  | IMBALANCE
  | NUDGE
  | STRUCTURED
  | PAUSE
  | CHECKIN
deriving Repr, DecidableEq

/-- The closed event vocabulary `DiscussionEvent` of `types.ts`. -/
inductive DiscussionEvent where
  | SPEAKER_SET (name : String)
  | SILENCE
  | TICK (seconds : ℚ)
  | NEXT_TURN
  | SET_QUIET_SPEAKER (name : Option String)
  | SET_AUTO_MODE (enabled : Bool)
  | SET_QUIET_MODE (enabled : Bool)
  | TURNS_COMPLETE
  | PAUSE_DONE
  | CHECKIN (canContinue : Bool)
  | ADD_SPEAKER (name : String)
  | REMOVE_SPEAKER (name : String)
  | SET_TALK_TIME (name : String) (seconds : ℚ)
  | SET_SILENCE (seconds : ℚ)
  | FORCE_STATE (state : DiscussionState)
deriving Repr, DecidableEq

/-- Association-list model of the JS `Record<string, number>` talk-time map:
lookup of the first binding of a key. -/
def ttGet (m : List (String × ℚ)) (k : String) : Option ℚ :=
  match m with
  | [] => none
  | (k', v) :: rest => if k' = k then some v else ttGet rest k

/-- `{...m, [k]: v}` / `m[k] = v`: replace the first binding of `k` in
place (JS objects keep the key's original position), append if absent. -/
def ttSet (m : List (String × ℚ)) (k : String) (v : ℚ) : List (String × ℚ) :=
  match m with
  | [] => [(k, v)]
  | (k', v') :: rest => if k' = k then (k, v) :: rest else (k', v') :: ttSet rest k v

/-- `delete m[k]`. -/
def ttDel (m : List (String × ℚ)) (k : String) : List (String × ℚ) :=
  m.filter (fun p => p.1 ≠ k)

/-- Sum of the values of the map. -/
def ttSum (m : List (String × ℚ)) : ℚ :=
  (m.map Prod.snd).sum

/-- `speakers.forEach(s => talkTime[s] = 0)` starting from `m`. -/
def ttZeros (speakers : List String) (m : List (String × ℚ)) : List (String × ℚ) :=
  speakers.foldl (fun acc s => ttSet acc s 0) m

/-- The `EngineContext` record of `types.ts`, numbers as rationals. -/
structure EngineContext where
  speakers : List String
  activeSpeaker : Option String
  quietSpeaker : Option String
  talkTime : List (String × ℚ)
  totalSeconds : ℚ
  silenceSeconds : ℚ
  totalTalkTime : ℚ
  currentMonologueSeconds : ℚ
  autoMode : Bool
  quietMode : Bool
  imbalanceScoreThreshold : ℚ
  imbalanceHoldSeconds : ℚ
  nudgeHoldSeconds : ℚ
  turnHoldSeconds : ℚ
  imbalanceSince : Option ℚ
  nudgeSince : Option ℚ
  stateSince : ℚ
  turnSince : ℚ
  turnOrder : List String
  turnIndex : Nat
  dominanceScore : ℚ
  imbalanceFlag : Bool
deriving Repr, DecidableEq

/-- An engine value: current phase plus context (the two private fields of
`DiscussionEngine`). -/
structure Engine where
  state : DiscussionState
  ctx : EngineContext
deriving Repr, DecidableEq

/-- `Math.max(...times)` over the (nonempty in the caller) list;
JS would give `-Infinity` on an empty list, here 0 (that branch is
unreachable: the caller returns early when `speakers` is empty). -/
def jsMax (times : List ℚ) : ℚ :=
  match times with
  | [] => 0
  | t :: ts => ts.foldl max t

/-- `calculateDominance` of `DiscussionEngine.ts`:
`(max − mean) / (totalTalkTime + 1e-6)`, with 0 on degenerate input.
`talkTime[s] || 0` reads as `(ttGet tt s).getD 0` (a stored 0 and a
missing key both yield 0). -/
def calculateDominance (talkTime : List (String × ℚ)) (speakers : List String)
    (totalTalkTime : ℚ) : ℚ :=
  if speakers.length = 0 ∨ totalTalkTime ≤ 0 then 0
  else
    let times := speakers.map (fun s => (ttGet talkTime s).getD 0)
    let mx := jsMax times
    let mean := totalTalkTime / (speakers.length : ℚ)
    (mx - mean) / (totalTalkTime + 1 / 1000000)

/-- `new DiscussionEngine(speakers, thresholds)`: only `autoMode` and
`imbalanceScoreThreshold` are read from the override record
(`?? true`, `?? 0.35`); everything else is fixed. -/
def construct (speakers : List String) (autoModeOv : Option Bool)
    (thresholdOv : Option ℚ) : Engine :=
  { state := DiscussionState.MONITORING
    ctx :=
      { speakers := speakers
        activeSpeaker := none
        quietSpeaker := none
        talkTime := ttZeros speakers []
        totalSeconds := 0
        silenceSeconds := 0
        totalTalkTime := 0
        currentMonologueSeconds := 0
        autoMode := autoModeOv.getD true
        quietMode := false
        imbalanceScoreThreshold := thresholdOv.getD (35 / 100)
        imbalanceHoldSeconds := 15
        nudgeHoldSeconds := 15
        turnHoldSeconds := 60
        imbalanceSince := none
        nudgeSince := none
        stateSince := 0
        turnSince := 0
        turnOrder := []
        turnIndex := 0
        dominanceScore := 0
        imbalanceFlag := false } }

/-- The imbalance-flag rule of `updateMetrics`: forced false in the four
suppressing phases, in quiet mode, or during the 15-second grace period;
otherwise score-threshold OR 15-second-monologue. -/
def computeFlag (state : DiscussionState) (c : EngineContext) (score : ℚ) : Bool :=
  if state = DiscussionState.STRUCTURED ∨ state = DiscussionState.PAUSE ∨
     state = DiscussionState.NUDGE ∨ state = DiscussionState.CHECKIN ∨
     c.quietMode = true ∨ c.totalSeconds < 15 then
    false
  else if c.imbalanceScoreThreshold ≤ score ∨ 15 ≤ c.currentMonologueSeconds then
    true
  else
    false

/-- `updateMetrics`: recompute `dominanceScore` and `imbalanceFlag`. -/
def updateMetrics (e : Engine) : Engine :=
  let score := calculateDominance e.ctx.talkTime e.ctx.speakers e.ctx.totalTalkTime
  { e with ctx := { e.ctx with
      dominanceScore := score
      imbalanceFlag := computeFlag e.state e.ctx score } }

/-- JS `x || null` on a string-or-null value: the empty string is falsy
and collapses to null. -/
def orNull (s : Option String) : Option String :=
  match s with
  | some n => if n = "" then none else some n
  | none => none

/-- `setState`: phase-entry side effects, then `stateSince` stamp and a
metrics recompute; no-op when the requested phase equals the current one. -/
def setState (e : Engine) (next : DiscussionState) : Engine :=
  if e.state = next then e
  else
    let prev := e.state
    let c := e.ctx
    let c :=
      match next with
      | DiscussionState.MONITORING =>
        let c :=
          if prev = DiscussionState.CHECKIN then
            { c with
                totalSeconds := 0
                totalTalkTime := 0
                currentMonologueSeconds := 0
                silenceSeconds := 0
                imbalanceSince := none
                imbalanceFlag := false
                dominanceScore := 0
                talkTime := ttZeros c.speakers [] }
          else c
        { c with activeSpeaker := none }
      | DiscussionState.STRUCTURED =>
        let order := c.speakers
        { c with
            turnOrder := order
            turnIndex := 0
            activeSpeaker := orNull order.head?
            turnSince := c.totalSeconds
            currentMonologueSeconds := 0 }
      | DiscussionState.PAUSE =>
        { c with activeSpeaker := none, silenceSeconds := 0, currentMonologueSeconds := 0 }
      | DiscussionState.CHECKIN =>
        { c with activeSpeaker := none, currentMonologueSeconds := 0 }
      | _ => c
    updateMetrics { state := next, ctx := { c with stateSince := c.totalSeconds } }

/-- `nextTurn`: advance the structured round-robin; wrap to REFLECTION
PAUSE past the last index; no-op outside STRUCTURED. -/
def nextTurn (e : Engine) : Engine :=
  if e.state ≠ DiscussionState.STRUCTURED then e
  else
    let idx := e.ctx.turnIndex + 1
    let e' : Engine := { e with ctx := { e.ctx with turnIndex := idx } }
    if e'.ctx.turnOrder.length ≤ idx then
      setState e' DiscussionState.PAUSE
    else
      { e' with ctx := { e'.ctx with
          activeSpeaker := e'.ctx.turnOrder[idx]?
          turnSince := e'.ctx.totalSeconds
          currentMonologueSeconds := 0 } }

/-- `autoAdvanceIfNeeded`: autonomous phase-advance checks, gated on
`autoMode`. -/
def autoAdvanceIfNeeded (e : Engine) : Engine :=
  if e.ctx.autoMode = false then e
  else
    let now := e.ctx.totalSeconds
    match e.state with
    | DiscussionState.MONITORING =>
      if e.ctx.quietMode = true then
        { e with ctx := { e.ctx with imbalanceSince := none } }
      else if e.ctx.imbalanceFlag = true then
        let since := e.ctx.imbalanceSince.getD now
        let e' : Engine := { e with ctx := { e.ctx with imbalanceSince := some since } }
        if e'.ctx.imbalanceHoldSeconds ≤ now - since then
          setState { e' with ctx := { e'.ctx with imbalanceSince := none } }
            DiscussionState.IMBALANCE
        else e'
      else
        { e with ctx := { e.ctx with imbalanceSince := none } }
    | DiscussionState.IMBALANCE =>
      if 15 ≤ now - e.ctx.stateSince then setState e DiscussionState.NUDGE else e
    | DiscussionState.NUDGE =>
      if e.ctx.nudgeHoldSeconds ≤ now - e.ctx.stateSince then
        setState e DiscussionState.STRUCTURED
      else e
    | DiscussionState.STRUCTURED =>
      if 0 < e.ctx.turnOrder.length ∧ e.ctx.turnHoldSeconds ≤ now - e.ctx.turnSince then
        nextTurn e
      else e
    | DiscussionState.PAUSE =>
      if 20 ≤ now - e.ctx.stateSince then setState e DiscussionState.CHECKIN else e
    | DiscussionState.CHECKIN =>
      if 20 ≤ now - e.ctx.stateSince then setState e DiscussionState.MONITORING else e

/-- The JS truthiness-plus-membership test of the TICK handler:
`this.ctx.activeSpeaker && this.ctx.talkTime[this.ctx.activeSpeaker] !== undefined`. -/
def isTalking (c : EngineContext) : Bool :=
  match c.activeSpeaker with
  | some n => if n = "" then false else (ttGet c.talkTime n).isSome
  | none => false

/-- The direct context mutation of the TICK handler, before the metrics
recompute and the autonomous-advance check. -/
def applyTick (c : EngineContext) (dt : ℚ) : EngineContext :=
  let c := { c with totalSeconds := c.totalSeconds + dt }
  if isTalking c then
    match c.activeSpeaker with
    | some n =>
      { c with
          talkTime := ttSet c.talkTime n (((ttGet c.talkTime n).getD 0) + dt)
          totalTalkTime := c.totalTalkTime + dt
          currentMonologueSeconds := c.currentMonologueSeconds + dt
          silenceSeconds := 0 }
    | none => c
  else
    { c with silenceSeconds := c.silenceSeconds + dt, currentMonologueSeconds := 0 }

/-- `turnOrder.indexOf(name)` as an optional index. -/
def indexOfName (l : List String) (name : String) : Option Nat :=
  match l with
  | [] => none
  | x :: xs => if x = name then some 0 else (indexOfName xs name).map (· + 1)

/-- `send`: the engine's single mutation entry point, one case per event
tag; tags without a case in the source switch (`TURNS_COMPLETE`,
`PAUSE_DONE`, `CHECKIN`) fall through unchanged. -/
def send (e : Engine) (ev : DiscussionEvent) : Engine :=
  match ev with
  | DiscussionEvent.SPEAKER_SET name =>
    let mono :=
      if e.ctx.activeSpeaker ≠ some name then 0 else e.ctx.currentMonologueSeconds
    if e.state = DiscussionState.STRUCTURED then
      match indexOfName e.ctx.turnOrder name with
      | some idx =>
        { e with ctx := { e.ctx with
            currentMonologueSeconds := mono
            turnIndex := idx
            activeSpeaker := some name
            turnSince := e.ctx.totalSeconds } }
      | none => { e with ctx := { e.ctx with currentMonologueSeconds := mono } }
    else
      { e with ctx := { e.ctx with
          currentMonologueSeconds := mono
          activeSpeaker := some name } }
  | DiscussionEvent.SET_QUIET_SPEAKER name =>
    { e with ctx := { e.ctx with quietSpeaker := name } }
  | DiscussionEvent.SET_AUTO_MODE enabled =>
    { e with ctx := { e.ctx with autoMode := enabled } }
  | DiscussionEvent.SET_QUIET_MODE enabled =>
    updateMetrics { e with ctx := { e.ctx with quietMode := enabled } }
  | DiscussionEvent.SILENCE =>
    { e with ctx := { e.ctx with activeSpeaker := none, currentMonologueSeconds := 0 } }
  | DiscussionEvent.TICK dt =>
    autoAdvanceIfNeeded (updateMetrics { e with ctx := applyTick e.ctx dt })
  | DiscussionEvent.ADD_SPEAKER name =>
    if name ∈ e.ctx.speakers then e
    else
      updateMetrics { e with ctx := { e.ctx with
          speakers := e.ctx.speakers ++ [name]
          talkTime := ttSet e.ctx.talkTime name 0 } }
  | DiscussionEvent.REMOVE_SPEAKER name =>
    let removed := (ttGet e.ctx.talkTime name).getD 0
    updateMetrics { e with ctx := { e.ctx with
        speakers := e.ctx.speakers.filter (fun s => s ≠ name)
        talkTime := ttDel e.ctx.talkTime name
        totalTalkTime := max 0 (e.ctx.totalTalkTime - removed)
        activeSpeaker :=
          if e.ctx.activeSpeaker = some name then none else e.ctx.activeSpeaker
        currentMonologueSeconds :=
          if e.ctx.activeSpeaker = some name then 0 else e.ctx.currentMonologueSeconds
        quietSpeaker :=
          if e.ctx.quietSpeaker = some name then none else e.ctx.quietSpeaker } }
  | DiscussionEvent.SET_TALK_TIME name seconds =>
    match ttGet e.ctx.talkTime name with
    | some oldVal =>
      updateMetrics { e with ctx := { e.ctx with
          talkTime := ttSet e.ctx.talkTime name (max 0 seconds)
          totalTalkTime := e.ctx.totalTalkTime - oldVal + max 0 seconds } }
    | none => e
  | DiscussionEvent.SET_SILENCE seconds =>
    updateMetrics { e with ctx := { e.ctx with silenceSeconds := max 0 seconds } }
  | DiscussionEvent.FORCE_STATE st =>
    setState e st
  | DiscussionEvent.NEXT_TURN =>
    nextTurn e
  | DiscussionEvent.TURNS_COMPLETE => e
  | DiscussionEvent.PAUSE_DONE => e
  | DiscussionEvent.CHECKIN _ => e

/-- Engines reachable from a constructor call by a sequence of events. -/
inductive Reachable : Engine → Prop where
  | init (speakers : List String) (autoModeOv : Option Bool) (thresholdOv : Option ℚ) :
      Reachable (construct speakers autoModeOv thresholdOv)
  | step (e : Engine) (ev : DiscussionEvent) :
      Reachable e → Reachable (send e ev)

/-! ### Definitions supporting the individual claims -/

/-- Keys of the talk-time map. -/
def ttKeys (m : List (String × ℚ)) : List String :=
  m.map Prod.fst

/-- All talk-time values are nonnegative. -/
def ttNonneg (m : List (String × ℚ)) : Prop :=
  ∀ p ∈ m, 0 ≤ p.2

/-- All talk-time values are zero. -/
def ttAllZero (m : List (String × ℚ)) : Prop :=
  ∀ p ∈ m, p.2 = 0

/-- The talk-time bookkeeping invariant: distinct keys, nonnegative
values, every key a member of `speakers`, and `totalTalkTime` equal to
the live sum. -/
def TalkInv (c : EngineContext) : Prop :=
  (ttKeys c.talkTime).Nodup ∧ ttNonneg c.talkTime ∧
  (∀ k ∈ ttKeys c.talkTime, k ∈ c.speakers) ∧
  c.totalTalkTime = ttSum c.talkTime

/-- The event kinds quantified over in the talk-time-sum claim. -/
def BasicEvent : DiscussionEvent → Prop
  | DiscussionEvent.ADD_SPEAKER _ => True
  | DiscussionEvent.REMOVE_SPEAKER _ => True
  | DiscussionEvent.SET_TALK_TIME _ _ => True
  | DiscussionEvent.TICK dt => 0 ≤ dt
  | _ => False

/-- An event whose TICK payload, if any, is nonnegative. -/
def TickNonneg : DiscussionEvent → Prop
  | DiscussionEvent.TICK dt => 0 ≤ dt
  | _ => True

/-- The stored derived metrics agree with a fresh recomputation from the
current context. -/
def MetricsFresh (e : Engine) : Prop :=
  e.ctx.dominanceScore =
    calculateDominance e.ctx.talkTime e.ctx.speakers e.ctx.totalTalkTime ∧
  e.ctx.imbalanceFlag = computeFlag e.state e.ctx e.ctx.dominanceScore

/-- Events whose `send` case in the source ends in an `updateMetrics`
call (for `ADD_SPEAKER`, `SET_TALK_TIME` and `FORCE_STATE` only under the
guard that makes the handler act at all). -/
def RecomputingEvent (e : Engine) : DiscussionEvent → Prop
  | DiscussionEvent.TICK _ => True
  | DiscussionEvent.SET_QUIET_MODE _ => True
  | DiscussionEvent.SET_SILENCE _ => True
  | DiscussionEvent.REMOVE_SPEAKER _ => True
  | DiscussionEvent.ADD_SPEAKER name => name ∉ e.ctx.speakers
  | DiscussionEvent.SET_TALK_TIME name _ => (ttGet e.ctx.talkTime name).isSome = true
  | DiscussionEvent.FORCE_STATE st => st ≠ e.state
  | _ => False

/-- The structured-turn bookkeeping that actually holds in reachable
states: the index stays in range when `turnOrder` is nonempty (and is 0
when it is empty), and the active speaker, when set at all, is the
scheduled one. -/
def TurnInv (e : Engine) : Prop :=
  e.state = DiscussionState.STRUCTURED →
    (e.ctx.turnOrder = [] → e.ctx.turnIndex = 0) ∧
    (e.ctx.turnOrder ≠ [] →
      e.ctx.turnIndex < e.ctx.turnOrder.length ∧
      (e.ctx.activeSpeaker = none ∨
        e.ctx.activeSpeaker = e.ctx.turnOrder[e.ctx.turnIndex]?))

/-- The engine of the escalation scenario: speakers A and B, defaults,
`SPEAKER_SET{A}`, then `n` events `TICK{1}`. -/
def escRun (n : Nat) : Engine :=
  List.foldl send
    (send (construct ["A", "B"] none none) (DiscussionEvent.SPEAKER_SET "A"))
    (List.replicate n (DiscussionEvent.TICK 1))

/-- Run refuting the unrestricted talk-time-sum claim: a negative TICK
drives a talk time below zero inside structured mode, after which the
`max(0, ...)` floor of REMOVE_SPEAKER desynchronises `totalTalkTime`. -/
def talkSumCounterRun : Engine :=
  List.foldl send (construct ["A", "B"] none none)
    [DiscussionEvent.SET_TALK_TIME "A" 100, DiscussionEvent.TICK 15,
     DiscussionEvent.TICK 15, DiscussionEvent.TICK 15, DiscussionEvent.TICK 15,
     DiscussionEvent.TICK (-200), DiscussionEvent.REMOVE_SPEAKER "B"]

/-- Run refuting the metrics-freshness claim for SPEAKER_SET: balanced
talk times, then a 16-second monologue trips the flag, then a speaker
change resets the monologue without recomputing the flag. -/
def staleFlagRun : Engine :=
  List.foldl send (construct ["A", "B"] none none)
    [DiscussionEvent.SET_TALK_TIME "A" 100, DiscussionEvent.SET_TALK_TIME "B" 100,
     DiscussionEvent.SPEAKER_SET "A", DiscussionEvent.TICK 16,
     DiscussionEvent.SPEAKER_SET "B"]

/-- Structured engine one tick in: the active speaker A has held the
floor for one second. -/
def structuredTickRun : Engine :=
  List.foldl send (construct ["A", "B"] none none)
    [DiscussionEvent.FORCE_STATE DiscussionState.STRUCTURED, DiscussionEvent.TICK 1]

/-- An active speaker name with no talk-time entry: SPEAKER_SET outside
structured mode performs no membership check. -/
def unknownActiveRun : Engine :=
  List.foldl send (construct ["A"] none none)
    [DiscussionEvent.SPEAKER_SET "B", DiscussionEvent.TICK 5]

/-- An engine in CHECK_IN with 20 seconds on the clock. -/
def checkinAt20Run : Engine :=
  List.foldl send (construct [] none none)
    [DiscussionEvent.TICK 20, DiscussionEvent.FORCE_STATE DiscussionState.CHECKIN]

/-- The structured phase entered with an empty speaker set. -/
def emptyStructuredRun : Engine :=
  send (construct [] none none) (DiscussionEvent.FORCE_STATE DiscussionState.STRUCTURED)

/-- The structured phase entered with speakers A and B. -/
def structuredABRun : Engine :=
  send (construct ["A", "B"] none none)
    (DiscussionEvent.FORCE_STATE DiscussionState.STRUCTURED)

/-- A structured engine after SILENCE: the phase stays structured but the
active speaker is cleared. -/
def silencedStructuredRun : Engine :=
  List.foldl send (construct ["A", "B"] none none)
    [DiscussionEvent.FORCE_STATE DiscussionState.STRUCTURED, DiscussionEvent.SILENCE]

/-- Removing B in structured mode and then advancing the turn: the stale
`turnOrder` hands the floor back to the removed name. -/
def removedTurnRun : Engine :=
  List.foldl send (construct ["A", "B"] none none)
    [DiscussionEvent.FORCE_STATE DiscussionState.STRUCTURED,
     DiscussionEvent.REMOVE_SPEAKER "B", DiscussionEvent.NEXT_TURN]

/-! ### Lemmas about the talk-time association list -/

theorem ttGet_ttSet (m : List (String × ℚ)) (k : String) (v : ℚ) (k' : String) :
    ttGet (ttSet m k v) k' = if k = k' then some v else ttGet m k' := by
  induction m with
  | nil => simp [ttSet, ttGet]
  | cons p rest ih =>
    obtain ⟨a, b⟩ := p
    by_cases hak : a = k
    · subst hak
      by_cases hkk : a = k'
      · subst hkk; simp [ttSet, ttGet]
      · simp [ttSet, ttGet, hkk]
    · by_cases hak' : a = k'
      · subst hak'
        have hkk : k ≠ a := fun h => hak h.symm
        simp [ttSet, ttGet, hak, hkk]
      · simp [ttSet, ttGet, hak, hak', ih]

theorem ttSum_cons (p : String × ℚ) (m : List (String × ℚ)) :
    ttSum (p :: m) = p.2 + ttSum m := by
  simp [ttSum]

theorem ttSum_ttSet (m : List (String × ℚ)) (k : String) (v : ℚ) :
    ttSum (ttSet m k v) = ttSum m - (ttGet m k).getD 0 + v := by
  induction m with
  | nil => simp [ttSet, ttGet, ttSum]
  | cons p rest ih =>
    obtain ⟨a, b⟩ := p
    by_cases hak : a = k
    · subst hak
      simp [ttSet, ttGet, ttSum_cons]
      ring
    · simp [ttSet, ttGet, hak, ttSum_cons, ih]
      ring

theorem mem_ttKeys (m : List (String × ℚ)) (k : String) :
    k ∈ ttKeys m ↔ ∃ v, (k, v) ∈ m := by
  constructor
  · intro h
    obtain ⟨p, hp, hpk⟩ := List.mem_map.mp h
    exact ⟨p.2, by rwa [show (k, p.2) = p from by rw [← hpk]]⟩
  · rintro ⟨v, hv⟩
    exact List.mem_map.mpr ⟨(k, v), hv, rfl⟩

theorem ttKeys_cons (a : String) (b : ℚ) (m : List (String × ℚ)) :
    ttKeys ((a, b) :: m) = a :: ttKeys m := rfl

theorem ttKeys_ttSet_of_mem (m : List (String × ℚ)) (k : String) (v : ℚ)
    (h : k ∈ ttKeys m) : ttKeys (ttSet m k v) = ttKeys m := by
  induction m with
  | nil => simp [ttKeys] at h
  | cons p rest ih =>
    obtain ⟨a, b⟩ := p
    by_cases hak : a = k
    · subst hak; simp [ttSet, ttKeys]
    · have h' : k ∈ ttKeys rest := by
        rw [ttKeys_cons] at h
        rcases List.mem_cons.mp h with h | h
        · exact absurd h.symm hak
        · exact h
      simp only [ttSet, if_neg hak]
      rw [ttKeys_cons, ttKeys_cons, ih h']

theorem ttKeys_ttSet_of_not_mem (m : List (String × ℚ)) (k : String) (v : ℚ)
    (h : k ∉ ttKeys m) : ttKeys (ttSet m k v) = ttKeys m ++ [k] := by
  induction m with
  | nil => simp [ttSet, ttKeys]
  | cons p rest ih =>
    obtain ⟨a, b⟩ := p
    have hak : a ≠ k := by
      intro hh
      exact h (by simp [ttKeys, hh])
    have h' : k ∉ ttKeys rest := by
      intro hh
      rw [ttKeys_cons] at h
      exact h (List.mem_cons.mpr (Or.inr hh))
    simp only [ttSet, if_neg hak]
    rw [ttKeys_cons, ttKeys_cons, ih h']
    rfl

theorem nodup_ttKeys_ttSet (m : List (String × ℚ)) (k : String) (v : ℚ)
    (h : (ttKeys m).Nodup) : (ttKeys (ttSet m k v)).Nodup := by
  by_cases hm : k ∈ ttKeys m
  · rwa [ttKeys_ttSet_of_mem m k v hm]
  · rw [ttKeys_ttSet_of_not_mem m k v hm]
    refine List.nodup_append.mpr ⟨h, List.nodup_singleton _, ?_⟩
    intro x hx hxk
    rw [List.mem_singleton] at hxk
    exact hm (hxk ▸ hx)

theorem ttNonneg_ttSet (m : List (String × ℚ)) (k : String) (v : ℚ)
    (hm : ttNonneg m) (hv : 0 ≤ v) : ttNonneg (ttSet m k v) := by
  induction m with
  | nil =>
    intro p hp
    simp [ttSet] at hp
    subst hp; exact hv
  | cons q rest ih =>
    obtain ⟨a, b⟩ := q
    have hrest : ttNonneg rest := fun p hp => hm p (by simp [hp])
    by_cases hak : a = k
    · subst hak
      intro p hp
      simp [ttSet] at hp
      rcases hp with hp | hp
      · subst hp; exact hv
      · exact hrest p hp
    · intro p hp
      simp [ttSet, hak] at hp
      rcases hp with hp | hp
      · subst hp; exact hm (a, b) (by simp)
      · exact ih hrest p hp

theorem ttGet_isSome_of_nonneg (m : List (String × ℚ)) (k : String)
    (hm : ttNonneg m) : 0 ≤ (ttGet m k).getD 0 := by
  induction m with
  | nil => simp [ttGet]
  | cons p rest ih =>
    obtain ⟨a, b⟩ := p
    have hrest : ttNonneg rest := fun q hq => hm q (by simp [hq])
    by_cases hak : a = k
    · subst hak
      simpa [ttGet] using hm (a, b) (by simp)
    · simpa [ttGet, hak] using ih hrest

theorem ttSum_ttDel (m : List (String × ℚ)) (k : String)
    (h : (ttKeys m).Nodup) : ttSum (ttDel m k) = ttSum m - (ttGet m k).getD 0 := by
  induction m with
  | nil => simp [ttDel, ttGet, ttSum]
  | cons p rest ih =>
    obtain ⟨a, b⟩ := p
    rw [ttKeys_cons] at h
    obtain ⟨hnotin, hrest⟩ := List.nodup_cons.mp h
    by_cases hak : a = k
    · subst hak
      have hfix : ttDel rest a = rest := by
        apply List.filter_eq_self.mpr
        intro q hq
        have hqa : q.1 ≠ a := by
          intro hh
          exact hnotin ((mem_ttKeys rest a).mpr ⟨q.2, by rw [← hh, Prod.mk.eta]; exact hq⟩)
        simpa using hqa
      have hdel : ttDel ((a, b) :: rest) a = rest := by
        simp only [ttDel, List.filter_cons]
        simp [hfix, ttDel] at hfix ⊢
        exact hfix
      rw [hdel]
      simp [ttGet, ttSum_cons]
    · have hdel : ttDel ((a, b) :: rest) k = (a, b) :: ttDel rest k := by
        simp [ttDel, List.filter_cons, hak]
      rw [hdel, ttSum_cons, ttSum_cons, ih hrest]
      simp [ttGet, hak]
      ring

theorem ttNonneg_ttDel (m : List (String × ℚ)) (k : String)
    (hm : ttNonneg m) : ttNonneg (ttDel m k) := by
  intro p hp
  exact hm p (List.mem_of_mem_filter hp)

theorem ttKeys_ttDel (m : List (String × ℚ)) (k : String) :
    ttKeys (ttDel m k) = (ttKeys m).filter (fun s => s ≠ k) := by
  induction m with
  | nil => simp [ttDel, ttKeys]
  | cons p rest ih =>
    obtain ⟨a, b⟩ := p
    by_cases hak : a = k
    · subst hak
      simpa [ttDel, ttKeys] using ih
    · simpa [ttDel, ttKeys, hak] using ih

theorem nodup_ttKeys_ttDel (m : List (String × ℚ)) (k : String)
    (h : (ttKeys m).Nodup) : (ttKeys (ttDel m k)).Nodup := by
  rw [ttKeys_ttDel]
  exact h.filter _

theorem ttSum_nonneg (m : List (String × ℚ)) (hm : ttNonneg m) : 0 ≤ ttSum m := by
  induction m with
  | nil => simp [ttSum]
  | cons p rest ih =>
    have hrest : ttNonneg rest := fun q hq => hm q (by simp [hq])
    have hp : 0 ≤ p.2 := hm p (by simp)
    rw [ttSum_cons]
    exact add_nonneg hp (ih hrest)

theorem ttGet_eq_none_of_not_mem (m : List (String × ℚ)) (k : String)
    (h : k ∉ ttKeys m) : ttGet m k = none := by
  induction m with
  | nil => simp [ttGet]
  | cons p rest ih =>
    obtain ⟨a, b⟩ := p
    rw [ttKeys_cons] at h
    have hak : a ≠ k := fun hh => h (List.mem_cons.mpr (Or.inl hh.symm))
    have h' : k ∉ ttKeys rest := fun hh => h (List.mem_cons.mpr (Or.inr hh))
    simp [ttGet, hak, ih h']

theorem mem_ttKeys_ttSet (m : List (String × ℚ)) (k : String) (v : ℚ) (x : String)
    (h : x ∈ ttKeys (ttSet m k v)) : x ∈ ttKeys m ∨ x = k := by
  by_cases hm : k ∈ ttKeys m
  · rw [ttKeys_ttSet_of_mem m k v hm] at h
    exact Or.inl h
  · rw [ttKeys_ttSet_of_not_mem m k v hm] at h
    rcases List.mem_append.mp h with h | h
    · exact Or.inl h
    · exact Or.inr (List.mem_singleton.mp h)

theorem ttAllZero_ttSet (m : List (String × ℚ)) (k : String)
    (h : ttAllZero m) : ttAllZero (ttSet m k 0) := by
  induction m with
  | nil =>
    intro p hp
    simp [ttSet] at hp
    simp [hp]
  | cons q rest ih =>
    obtain ⟨a, b⟩ := q
    have hrest : ttAllZero rest := fun p hp => h p (by simp [hp])
    by_cases hak : a = k
    · subst hak
      intro p hp
      simp only [ttSet, if_pos rfl] at hp
      rcases List.mem_cons.mp hp with hp | hp
      · simp [hp]
      · exact hrest p hp
    · intro p hp
      simp only [ttSet, if_neg hak] at hp
      rcases List.mem_cons.mp hp with hp | hp
      · subst hp; exact h (a, b) (by simp)
      · exact ih hrest p hp

theorem ttAllZero_ttZeros (l : List String) (m : List (String × ℚ))
    (h : ttAllZero m) : ttAllZero (ttZeros l m) := by
  induction l generalizing m with
  | nil => simpa [ttZeros] using h
  | cons s rest ih =>
    simpa [ttZeros] using ih (ttSet m s 0) (ttAllZero_ttSet m s h)

theorem nodup_ttKeys_ttZeros (l : List String) (m : List (String × ℚ))
    (h : (ttKeys m).Nodup) : (ttKeys (ttZeros l m)).Nodup := by
  induction l generalizing m with
  | nil => simpa [ttZeros] using h
  | cons s rest ih =>
    simpa [ttZeros] using ih (ttSet m s 0) (nodup_ttKeys_ttSet m s 0 h)

theorem mem_ttKeys_ttZeros (l : List String) (m : List (String × ℚ)) (x : String)
    (h : x ∈ ttKeys (ttZeros l m)) : x ∈ ttKeys m ∨ x ∈ l := by
  induction l generalizing m with
  | nil => exact Or.inl (by simpa [ttZeros] using h)
  | cons s rest ih =>
    have h' : x ∈ ttKeys (ttZeros rest (ttSet m s 0)) := by simpa [ttZeros] using h
    rcases ih (ttSet m s 0) h' with h'' | h''
    · rcases mem_ttKeys_ttSet m s 0 x h'' with h3 | h3
      · exact Or.inl h3
      · exact Or.inr (by simp [h3])
    · exact Or.inr (by simp [h''])

theorem ttSum_of_allZero (m : List (String × ℚ)) (h : ttAllZero m) : ttSum m = 0 := by
  induction m with
  | nil => simp [ttSum]
  | cons p rest ih =>
    have hrest : ttAllZero rest := fun q hq => h q (by simp [hq])
    rw [ttSum_cons, h p (by simp), ih hrest]
    simp

theorem ttNonneg_of_allZero (m : List (String × ℚ)) (h : ttAllZero m) : ttNonneg m :=
  fun p hp => le_of_eq (h p hp).symm

/-! ### Preservation of the talk-time invariant by the engine -/

theorem talkInv_zeros (speakers : List String) :
    (ttKeys (ttZeros speakers [])).Nodup ∧ ttNonneg (ttZeros speakers []) ∧
    (∀ k ∈ ttKeys (ttZeros speakers []), k ∈ speakers) ∧
    (0 : ℚ) = ttSum (ttZeros speakers []) := by
  have hz : ttAllZero (ttZeros speakers []) :=
    ttAllZero_ttZeros speakers [] (by intro p hp; simp at hp)
  refine ⟨nodup_ttKeys_ttZeros speakers [] (by simp [ttKeys]),
    ttNonneg_of_allZero _ hz, ?_, (ttSum_of_allZero _ hz).symm⟩
  intro k hk
  rcases mem_ttKeys_ttZeros speakers [] k hk with h | h
  · simp [ttKeys] at h
  · exact h

theorem talkInv_construct (speakers : List String) (aOv : Option Bool) (tOv : Option ℚ) :
    TalkInv (construct speakers aOv tOv).ctx :=
  talkInv_zeros speakers

theorem talkInv_updateMetrics (e : Engine) (h : TalkInv e.ctx) :
    TalkInv (updateMetrics e).ctx := h

theorem talkInv_setState (e : Engine) (st : DiscussionState) (h : TalkInv e.ctx) :
    TalkInv (setState e st).ctx := by
  unfold setState
  by_cases he : e.state = st
  · simpa [he] using h
  · rw [if_neg he]
    cases st with
    | MONITORING =>
      by_cases hc : e.state = DiscussionState.CHECKIN
      · simp only [hc, if_pos rfl]
        exact talkInv_zeros e.ctx.speakers
      · simp only [if_neg hc]
        exact h
    | IMBALANCE => exact h
    | NUDGE => exact h
    | STRUCTURED => exact h
    | PAUSE => exact h
    | CHECKIN => exact h

theorem talkInv_nextTurn (e : Engine) (h : TalkInv e.ctx) :
    TalkInv (nextTurn e).ctx := by
  unfold nextTurn
  by_cases hs : e.state ≠ DiscussionState.STRUCTURED
  · simpa [hs] using h
  · rw [if_neg (by simpa using hs)]
    by_cases hl :
        ({ e with ctx := { e.ctx with turnIndex := e.ctx.turnIndex + 1 }} :
          Engine).ctx.turnOrder.length ≤ e.ctx.turnIndex + 1
    · simp only [if_pos hl]
      exact talkInv_setState _ _ h
    · simp only [if_neg hl]
      exact h

theorem talkInv_autoAdvance (e : Engine) (h : TalkInv e.ctx) :
    TalkInv (autoAdvanceIfNeeded e).ctx := by
  unfold autoAdvanceIfNeeded
  by_cases ha : e.ctx.autoMode = false
  · simpa [ha] using h
  · rw [if_neg ha]
    cases hs : e.state with
    | MONITORING =>
      by_cases hq : e.ctx.quietMode = true
      · simp only [if_pos hq]
        exact h
      · simp only [if_neg hq]
        by_cases hf : e.ctx.imbalanceFlag = true
        · simp only [if_pos hf]
          by_cases hh : e.ctx.imbalanceHoldSeconds ≤
              e.ctx.totalSeconds - (e.ctx.imbalanceSince.getD e.ctx.totalSeconds)
          · simp only [if_pos hh]
            exact talkInv_setState _ _ h
          · simp only [if_neg hh]
            exact h
        · simp only [if_neg hf]
          exact h
    | IMBALANCE =>
      by_cases hh : 15 ≤ e.ctx.totalSeconds - e.ctx.stateSince
      · simp only [if_pos hh]; exact talkInv_setState _ _ h
      · simp only [if_neg hh]; exact h
    | NUDGE =>
      by_cases hh : e.ctx.nudgeHoldSeconds ≤ e.ctx.totalSeconds - e.ctx.stateSince
      · simp only [if_pos hh]; exact talkInv_setState _ _ h
      · simp only [if_neg hh]; exact h
    | STRUCTURED =>
      by_cases hh : 0 < e.ctx.turnOrder.length ∧
          e.ctx.turnHoldSeconds ≤ e.ctx.totalSeconds - e.ctx.turnSince
      · simp only [if_pos hh]; exact talkInv_nextTurn _ h
      · simp only [if_neg hh]; exact h
    | PAUSE =>
      by_cases hh : 20 ≤ e.ctx.totalSeconds - e.ctx.stateSince
      · simp only [if_pos hh]; exact talkInv_setState _ _ h
      · simp only [if_neg hh]; exact h
    | CHECKIN =>
      by_cases hh : 20 ≤ e.ctx.totalSeconds - e.ctx.stateSince
      · simp only [if_pos hh]; exact talkInv_setState _ _ h
      · simp only [if_neg hh]; exact h

theorem talkInv_applyTick (c : EngineContext) (dt : ℚ) (h : TalkInv c) (hdt : 0 ≤ dt) :
    TalkInv (applyTick c dt) := by
  obtain ⟨hnd, hnn, hks, hsum⟩ := h
  unfold applyTick
  by_cases ht : isTalking { c with totalSeconds := c.totalSeconds + dt }
  · rw [if_pos ht]
    cases hact : c.activeSpeaker with
    | none =>
      unfold isTalking at ht
      simp [hact] at ht
    | some n =>
      simp only [hact]
      have hget : 0 ≤ (ttGet c.talkTime n).getD 0 := ttGet_isSome_of_nonneg _ _ hnn
      have hmem : n ∈ ttKeys c.talkTime := by
        unfold isTalking at ht
        simp only [hact] at ht
        by_cases hn : n = ""
        · simp [hn] at ht
        · rw [if_neg hn] at ht
          by_contra hnot
          rw [ttGet_eq_none_of_not_mem _ _ hnot] at ht
          simp at ht
      refine ⟨nodup_ttKeys_ttSet _ _ _ hnd,
        ttNonneg_ttSet _ _ _ hnn (add_nonneg hget hdt), ?_, ?_⟩
      · intro k hk
        rcases mem_ttKeys_ttSet _ _ _ _ hk with hk | hk
        · exact hks k hk
        · rw [hk]
          exact hks n hmem
      · rw [ttSum_ttSet, hsum]
        ring
  · rw [if_neg ht]
    exact ⟨hnd, hnn, hks, hsum⟩

theorem talkInv_send (e : Engine) (ev : DiscussionEvent) (h : TalkInv e.ctx)
    (hev : TickNonneg ev) : TalkInv (send e ev).ctx := by
  obtain ⟨hnd, hnn, hks, hsum⟩ := h
  cases ev with
  | SPEAKER_SET name =>
    simp only [send]
    repeat' split
    all_goals exact ⟨hnd, hnn, hks, hsum⟩
  | SILENCE => exact ⟨hnd, hnn, hks, hsum⟩
  | TICK dt =>
    have hdt : 0 ≤ dt := hev
    exact talkInv_autoAdvance _ (talkInv_updateMetrics _
      (talkInv_applyTick e.ctx dt ⟨hnd, hnn, hks, hsum⟩ hdt))
  | NEXT_TURN => exact talkInv_nextTurn _ ⟨hnd, hnn, hks, hsum⟩
  | SET_QUIET_SPEAKER name => exact ⟨hnd, hnn, hks, hsum⟩
  | SET_AUTO_MODE b => exact ⟨hnd, hnn, hks, hsum⟩
  | SET_QUIET_MODE b => exact talkInv_updateMetrics _ ⟨hnd, hnn, hks, hsum⟩
  | TURNS_COMPLETE => exact ⟨hnd, hnn, hks, hsum⟩
  | PAUSE_DONE => exact ⟨hnd, hnn, hks, hsum⟩
  | CHECKIN b => exact ⟨hnd, hnn, hks, hsum⟩
  | ADD_SPEAKER name =>
    by_cases hmem : name ∈ e.ctx.speakers
    · simp only [send, if_pos hmem]
      exact ⟨hnd, hnn, hks, hsum⟩
    · simp only [send, if_neg hmem]
      apply talkInv_updateMetrics
      have hnk : name ∉ ttKeys e.ctx.talkTime := fun hk => hmem (hks name hk)
      refine ⟨nodup_ttKeys_ttSet _ _ _ hnd, ttNonneg_ttSet _ _ _ hnn le_rfl, ?_, ?_⟩
      · intro k hk
        rcases mem_ttKeys_ttSet _ _ _ _ hk with hk | hk
        · exact List.mem_append.mpr (Or.inl (hks k hk))
        · exact List.mem_append.mpr (Or.inr (by simp [hk]))
      · rw [ttSum_ttSet, ttGet_eq_none_of_not_mem _ _ hnk, hsum]
        simp
  | REMOVE_SPEAKER name =>
    simp only [send]
    apply talkInv_updateMetrics
    have hdel : ttSum (ttDel e.ctx.talkTime name) =
        ttSum e.ctx.talkTime - (ttGet e.ctx.talkTime name).getD 0 :=
      ttSum_ttDel _ _ hnd
    have hdnn : ttNonneg (ttDel e.ctx.talkTime name) := ttNonneg_ttDel _ _ hnn
    have hpos : 0 ≤ e.ctx.totalTalkTime - (ttGet e.ctx.talkTime name).getD 0 := by
      rw [hsum, ← hdel]
      exact ttSum_nonneg _ hdnn
    have hmax : max 0 (e.ctx.totalTalkTime - (ttGet e.ctx.talkTime name).getD 0) =
        e.ctx.totalTalkTime - (ttGet e.ctx.talkTime name).getD 0 := max_eq_right hpos
    refine ⟨nodup_ttKeys_ttDel _ _ hnd, hdnn, ?_, ?_⟩
    · intro k hk
      rw [ttKeys_ttDel] at hk
      have hk1 : k ∈ ttKeys e.ctx.talkTime := List.mem_of_mem_filter hk
      have hk2 : k ≠ name := by simpa using List.of_mem_filter hk
      exact List.mem_filter.mpr ⟨hks k hk1, by simpa using hk2⟩
    · show max 0 (e.ctx.totalTalkTime - (ttGet e.ctx.talkTime name).getD 0) =
        ttSum (ttDel e.ctx.talkTime name)
      rw [hmax, hdel, hsum]
  | SET_TALK_TIME name seconds =>
    cases hget : ttGet e.ctx.talkTime name with
    | none =>
      simp only [send, hget]
      exact ⟨hnd, hnn, hks, hsum⟩
    | some oldVal =>
      simp only [send, hget]
      apply talkInv_updateMetrics
      have hmem : name ∈ ttKeys e.ctx.talkTime := by
        by_contra hnot
        rw [ttGet_eq_none_of_not_mem _ _ hnot] at hget
        exact Option.noConfusion hget
      refine ⟨nodup_ttKeys_ttSet _ _ _ hnd,
        ttNonneg_ttSet _ _ _ hnn (le_max_left 0 seconds), ?_, ?_⟩
      · intro k hk
        rcases mem_ttKeys_ttSet _ _ _ _ hk with hk | hk
        · exact hks k hk
        · rw [hk]
          exact hks name hmem
      · rw [ttSum_ttSet, hget, hsum]
        simp
  | SET_SILENCE seconds => exact talkInv_updateMetrics _ ⟨hnd, hnn, hks, hsum⟩
  | FORCE_STATE st => exact talkInv_setState _ _ ⟨hnd, hnn, hks, hsum⟩

theorem talkInv_foldl (e : Engine) (evs : List DiscussionEvent) (h : TalkInv e.ctx)
    (hevs : ∀ ev ∈ evs, TickNonneg ev) : TalkInv (List.foldl send e evs).ctx := by
  induction evs generalizing e with
  | nil => simpa using h
  | cons ev rest ih =>
    rw [List.foldl_cons]
    exact ih (send e ev) (talkInv_send e ev h (hevs ev (by simp)))
      (fun ev' hev' => hevs ev' (by simp [hev']))

theorem tickNonneg_of_basic (ev : DiscussionEvent) (h : BasicEvent ev) : TickNonneg ev := by
  cases ev <;> simp [BasicEvent, TickNonneg] at h ⊢ <;> exact h

/-! ### Lemmas about the maximum of a list -/

theorem foldl_max_const (v : ℚ) (l : List ℚ) (h : ∀ x ∈ l, x = v) :
    List.foldl max v l = v := by
  induction l with
  | nil => simp
  | cons x rest ih =>
    rw [List.foldl_cons, h x (by simp), max_self]
    exact ih (fun y hy => h y (by simp [hy]))

theorem jsMax_const (v : ℚ) (l : List ℚ) (hl : l ≠ []) (h : ∀ x ∈ l, x = v) :
    jsMax l = v := by
  cases l with
  | nil => exact absurd rfl hl
  | cons t ts =>
    have ht : t = v := h t (by simp)
    subst ht
    exact foldl_max_const t ts (fun y hy => h y (by simp [hy]))

/-! ### Claim theorems -/

/-- Claim C1: starting from `construct` with speakers A and B, default
policy constants and autoMode true, after `SPEAKER_SET{A}` and repeated
`TICK{1}` events with A the sole speaker, the phase flips from
MONITORING to IMBALANCE_DETECTED on the tick reaching `totalSeconds =
30`, to NUDGE on the tick reaching 45, and to STRUCTURED_TURN_TAKING on
the tick reaching 60. -/
theorem C1_autonomous_escalation_timeline :
    (escRun 29).state = DiscussionState.MONITORING ∧
    (escRun 30).state = DiscussionState.IMBALANCE ∧
    (escRun 30).ctx.totalSeconds = 30 ∧
    (escRun 44).state = DiscussionState.IMBALANCE ∧
    (escRun 45).state = DiscussionState.NUDGE ∧
    (escRun 45).ctx.totalSeconds = 45 ∧
    (escRun 59).state = DiscussionState.NUDGE ∧
    (escRun 60).state = DiscussionState.STRUCTURED ∧
    (escRun 60).ctx.totalSeconds = 60 := by
  with_unfolding_all decide

/-- Claim C5: with speakers A and B, after `SPEAKER_SET{A}` and up to 14
`TICK{1}` events, `imbalanceFlag` is false after every one of those
events, even though from the first tick on the dominance score exceeds
the threshold: the grace period `totalSeconds < 15` suppresses the
flag. -/
theorem C5_grace_period_suppresses_flag :
    ∀ n < 15, (escRun n).ctx.imbalanceFlag = false ∧
      (1 ≤ n → (escRun n).ctx.imbalanceScoreThreshold < (escRun n).ctx.dominanceScore) := by
  with_unfolding_all decide

/-- Claim C5 witness: the grace-period theorem instantiated at the 14th
tick. -/
theorem C5_grace_period_suppresses_flag_witness :
    (escRun 14).ctx.imbalanceFlag = false ∧
      (1 ≤ 14 → (escRun 14).ctx.imbalanceScoreThreshold < (escRun 14).ctx.dominanceScore) :=
  C5_grace_period_suppresses_flag 14 (by norm_num)

/-- Claim C2: the dominance scorer returns 0 on an empty speaker list or
nonpositive total; otherwise it computes `(max − mean) / (total + 1e-6)`
over the listed speakers; tied speakers (with the total equal to the
live sum) score exactly 0; and `score({A:30,B:0},[A,B],30)` is exactly
`15000000/30000001 ≈ 0.499999`. -/
theorem C2_dominance_scorer :
    (∀ tt spk (total : ℚ), spk = [] ∨ total ≤ 0 → calculateDominance tt spk total = 0) ∧
    (∀ tt spk (total : ℚ), spk ≠ [] → 0 < total →
      calculateDominance tt spk total =
        (jsMax (spk.map fun s => (ttGet tt s).getD 0) - total / (spk.length : ℚ)) /
          (total + 1 / 1000000)) ∧
    (∀ tt spk (total v : ℚ), spk ≠ [] → 0 < total →
      (∀ s ∈ spk, (ttGet tt s).getD 0 = v) → total = (spk.length : ℚ) * v →
      calculateDominance tt spk total = 0) ∧
    calculateDominance [("A", 30), ("B", 0)] ["A", "B"] 30 = 15000000 / 30000001 ∧
    |calculateDominance [("A", 30), ("B", 0)] ["A", "B"] 30 - 499999 / 1000000| <
      1 / 1000000 := by
  refine ⟨?_, ?_, ?_, ?_, ?_⟩
  · intro tt spk total h
    rcases h with h | h
    · simp [calculateDominance, h]
    · simp [calculateDominance, h]
  · intro tt spk total hspk htot
    rw [calculateDominance, if_neg]
    push_neg
    exact ⟨fun hl => hspk (List.length_eq_zero.mp hl), htot⟩
  · intro tt spk total v hspk htot hall htotal
    rw [calculateDominance, if_neg]
    · have hlen : (spk.length : ℚ) ≠ 0 := by
        simpa using fun hl => hspk (List.length_eq_zero.mp hl)
      have hmax : jsMax (spk.map fun s => (ttGet tt s).getD 0) = v := by
        apply jsMax_const
        · simpa using hspk
        · intro x hx
          obtain ⟨s, hs, hsx⟩ := List.mem_map.mp hx
          rw [← hsx]
          exact hall s hs
      have hmean : total / (spk.length : ℚ) = v := by
        rw [htotal, mul_div_cancel_left₀ _ hlen]
      simp only [hmax, hmean, sub_self, zero_div]
    · push_neg
      exact ⟨fun hl => hspk (List.length_eq_zero.mp hl), htot⟩
  · have hab : ("A" : String) ≠ "B" := by decide
    norm_num [calculateDominance, jsMax, ttGet, hab]
  · with_unfolding_all decide

/-- Claim C2 witness: the scorer theorem instantiated on the spec's two
canonical examples, an empty call and tied speakers. -/
theorem C2_dominance_scorer_witness :
    calculateDominance [] [] 0 = 0 ∧
    calculateDominance [("A", 10), ("B", 10)] ["A", "B"] 20 = 0 :=
  ⟨C2_dominance_scorer.1 [] [] 0 (Or.inl rfl),
   C2_dominance_scorer.2.2.1 [("A", 10), ("B", 10)] ["A", "B"] 20 10
     (by simp) (by norm_num)
     (by
       intro s hs
       fin_cases hs <;> with_unfolding_all decide)
     (by norm_num)⟩

/-- Claim C3 counterexample: within the claim's own event vocabulary, a
negative TICK inside structured mode drives a talk time to −100 while
`totalTalkTime` is floored at 0 by the following REMOVE_SPEAKER, so the
total no longer equals the live sum. -/
theorem C3_counterexample_talk_time_sum :
    talkSumCounterRun.ctx.totalTalkTime = 0 ∧
    ttSum talkSumCounterRun.ctx.talkTime = -100 := by
  with_unfolding_all decide

/-- Claim C3 (amended: TICK events carry nonnegative seconds): for every
constructed engine and every sequence of ADD_SPEAKER, REMOVE_SPEAKER,
SET_TALK_TIME and TICK events with nonnegative tick durations,
`totalTalkTime` exactly equals the sum of the talk-time values. -/
theorem C3_total_talk_time_is_sum (speakers : List String) (aOv : Option Bool)
    (tOv : Option ℚ) (evs : List DiscussionEvent)
    (hevs : ∀ ev ∈ evs, BasicEvent ev) :
    (List.foldl send (construct speakers aOv tOv) evs).ctx.totalTalkTime =
      ttSum (List.foldl send (construct speakers aOv tOv) evs).ctx.talkTime :=
  (talkInv_foldl (construct speakers aOv tOv) evs
    (talkInv_construct speakers aOv tOv)
    (fun ev hev => tickNonneg_of_basic ev (hevs ev hev))).2.2.2

/-- Claim C3 witness: the amended invariant on a concrete mixed
sequence. -/
theorem C3_total_talk_time_is_sum_witness :
    (List.foldl send (construct ["A"] none none)
        [DiscussionEvent.ADD_SPEAKER "B", DiscussionEvent.SET_TALK_TIME "A" 5,
         DiscussionEvent.TICK 3, DiscussionEvent.REMOVE_SPEAKER "A"]).ctx.totalTalkTime =
      ttSum (List.foldl send (construct ["A"] none none)
        [DiscussionEvent.ADD_SPEAKER "B", DiscussionEvent.SET_TALK_TIME "A" 5,
         DiscussionEvent.TICK 3, DiscussionEvent.REMOVE_SPEAKER "A"]).ctx.talkTime :=
  C3_total_talk_time_is_sum ["A"] none none _ (by
    intro ev hev
    fin_cases hev <;> norm_num [BasicEvent])

/-! ### The structured-turn invariant -/

theorem indexOfName_spec (l : List String) (name : String) (i : Nat)
    (h : indexOfName l name = some i) : i < l.length ∧ l[i]? = some name := by
  induction l generalizing i with
  | nil => simp [indexOfName] at h
  | cons x xs ih =>
    by_cases hx : x = name
    · simp only [indexOfName, if_pos hx] at h
      obtain rfl : (0 : Nat) = i := Option.some.inj h
      simpa using hx
    · simp only [indexOfName, if_neg hx, Option.map_eq_some'] at h
      obtain ⟨j, hj, rfl⟩ := h
      obtain ⟨hlt, hget⟩ := ih j hj
      exact ⟨by simpa using hlt, by simpa using hget⟩

theorem orNull_head (l : List String) :
    orNull l.head? = none ∨ orNull l.head? = l[0]? := by
  cases l with
  | nil => exact Or.inl rfl
  | cons h t =>
    by_cases hh : h = ""
    · exact Or.inl (by simp [orNull, hh])
    · exact Or.inr (by simp [orNull, hh])

theorem turnInv_updateMetrics (e : Engine) (h : TurnInv e) :
    TurnInv (updateMetrics e) := h

theorem setState_state (e : Engine) (st : DiscussionState) :
    (setState e st).state = st := by
  unfold setState
  by_cases he : e.state = st
  · rw [if_pos he]
    exact he
  · rw [if_neg he]
    rfl

theorem turnInv_setState_of_ne (e : Engine) (st : DiscussionState)
    (hst : st ≠ DiscussionState.STRUCTURED) : TurnInv (setState e st) := by
  intro habs
  rw [setState_state] at habs
  exact absurd habs hst

theorem turnInv_setState (e : Engine) (st : DiscussionState) (h : TurnInv e) :
    TurnInv (setState e st) := by
  by_cases hst : st = DiscussionState.STRUCTURED
  · subst hst
    unfold setState
    by_cases he : e.state = DiscussionState.STRUCTURED
    · rw [if_pos he]
      exact h
    · rw [if_neg he]
      intro _
      refine ⟨fun _ => rfl, fun hne => ⟨List.length_pos.mpr hne, ?_⟩⟩
      rcases orNull_head e.ctx.speakers with ho | ho
      · exact Or.inl ho
      · exact Or.inr ho
  · exact turnInv_setState_of_ne e st hst

theorem turnInv_nextTurn (e : Engine) (h : TurnInv e) : TurnInv (nextTurn e) := by
  unfold nextTurn
  by_cases hs : e.state ≠ DiscussionState.STRUCTURED
  · rw [if_pos hs]
    exact h
  · rw [if_neg hs]
    by_cases hl :
        ({ e with ctx := { e.ctx with turnIndex := e.ctx.turnIndex + 1 }} :
          Engine).ctx.turnOrder.length ≤ e.ctx.turnIndex + 1
    · rw [if_pos hl]
      exact turnInv_setState_of_ne _ _ (by decide)
    · rw [if_neg hl]
      intro _
      push_neg at hl
      have hl' : e.ctx.turnIndex + 1 < e.ctx.turnOrder.length := hl
      constructor
      · intro h0
        exfalso
        have h0' : e.ctx.turnOrder = [] := h0
        rw [h0'] at hl'
        simp at hl'
      · intro hne
        exact ⟨hl', Or.inr rfl⟩

theorem turnInv_autoAdvance (e : Engine) (h : TurnInv e) :
    TurnInv (autoAdvanceIfNeeded e) := by
  unfold autoAdvanceIfNeeded
  by_cases ha : e.ctx.autoMode = false
  · rw [if_pos ha]
    exact h
  · rw [if_neg ha]
    cases hs : e.state with
    | MONITORING =>
      by_cases hq : e.ctx.quietMode = true
      · simp only [if_pos hq]
        intro habs
        exact DiscussionState.noConfusion habs
      · simp only [if_neg hq]
        by_cases hf : e.ctx.imbalanceFlag = true
        · simp only [if_pos hf]
          by_cases hh : e.ctx.imbalanceHoldSeconds ≤
              e.ctx.totalSeconds - (e.ctx.imbalanceSince.getD e.ctx.totalSeconds)
          · simp only [if_pos hh]
            exact turnInv_setState_of_ne _ _ (by decide)
          · simp only [if_neg hh]
            intro habs
            exact DiscussionState.noConfusion habs
        · simp only [if_neg hf]
          intro habs
          exact DiscussionState.noConfusion habs
    | IMBALANCE =>
      by_cases hh : 15 ≤ e.ctx.totalSeconds - e.ctx.stateSince
      · simp only [if_pos hh]; exact turnInv_setState_of_ne _ _ (by decide)
      · simp only [if_neg hh]; exact h
    | NUDGE =>
      by_cases hh : e.ctx.nudgeHoldSeconds ≤ e.ctx.totalSeconds - e.ctx.stateSince
      · simp only [if_pos hh]; exact turnInv_setState _ _ h
      · simp only [if_neg hh]; exact h
    | STRUCTURED =>
      by_cases hh : 0 < e.ctx.turnOrder.length ∧
          e.ctx.turnHoldSeconds ≤ e.ctx.totalSeconds - e.ctx.turnSince
      · simp only [if_pos hh]; exact turnInv_nextTurn _ h
      · simp only [if_neg hh]; exact h
    | PAUSE =>
      by_cases hh : 20 ≤ e.ctx.totalSeconds - e.ctx.stateSince
      · simp only [if_pos hh]; exact turnInv_setState_of_ne _ _ (by decide)
      · simp only [if_neg hh]; exact h
    | CHECKIN =>
      by_cases hh : 20 ≤ e.ctx.totalSeconds - e.ctx.stateSince
      · simp only [if_pos hh]; exact turnInv_setState_of_ne _ _ (by decide)
      · simp only [if_neg hh]; exact h

theorem applyTick_turn_frame (c : EngineContext) (dt : ℚ) :
    (applyTick c dt).turnOrder = c.turnOrder ∧
    (applyTick c dt).turnIndex = c.turnIndex ∧
    (applyTick c dt).activeSpeaker = c.activeSpeaker := by
  simp only [applyTick]
  refine ⟨?_, ?_, ?_⟩ <;>
  · split
    · split <;> rfl
    · rfl

theorem turnInv_applyTick (e : Engine) (dt : ℚ) (h : TurnInv e) :
    TurnInv { e with ctx := applyTick e.ctx dt } := by
  intro hst
  obtain ⟨ho, hi, ha⟩ := applyTick_turn_frame e.ctx dt
  have h' := h hst
  rw [show ({ e with ctx := applyTick e.ctx dt } : Engine).ctx = applyTick e.ctx dt from rfl,
    ho, hi, ha]
  exact h'

theorem turnInv_send (e : Engine) (ev : DiscussionEvent) (h : TurnInv e) :
    TurnInv (send e ev) := by
  cases ev with
  | SPEAKER_SET name =>
    simp only [send]
    by_cases hs : e.state = DiscussionState.STRUCTURED
    · rw [if_pos hs]
      cases hidx : indexOfName e.ctx.turnOrder name with
      | none =>
        intro hst
        exact h (by simpa using hst)
      | some idx =>
        intro _
        obtain ⟨hlt, hget⟩ := indexOfName_spec _ _ _ hidx
        constructor
        · intro h0
          exfalso
          have h0' : e.ctx.turnOrder = [] := h0
          rw [h0'] at hlt
          simp at hlt
        · intro hne
          exact ⟨hlt, Or.inr hget.symm⟩
    · rw [if_neg hs]
      intro hst
      exact absurd (by simpa using hst) hs
  | SILENCE =>
    intro hst
    have h' := h (by simpa using hst)
    exact ⟨h'.1, fun hne => ⟨(h'.2 hne).1, Or.inl rfl⟩⟩
  | TICK dt =>
    exact turnInv_autoAdvance _ (turnInv_updateMetrics _ (turnInv_applyTick e dt h))
  | NEXT_TURN => exact turnInv_nextTurn _ h
  | SET_QUIET_SPEAKER name => exact fun hst => h hst
  | SET_AUTO_MODE b => exact fun hst => h hst
  | SET_QUIET_MODE b => exact fun hst => h hst
  | TURNS_COMPLETE => exact h
  | PAUSE_DONE => exact h
  | CHECKIN b => exact h
  | ADD_SPEAKER name =>
    by_cases hmem : name ∈ e.ctx.speakers
    · simp only [send, if_pos hmem]
      exact h
    · simp only [send, if_neg hmem]
      exact fun hst => h hst
  | REMOVE_SPEAKER name =>
    simp only [send]
    intro hst
    have h' := h (by simpa using hst)
    refine ⟨fun h0 => h'.1 h0, fun hne => ⟨(h'.2 hne).1, ?_⟩⟩
    by_cases han : e.ctx.activeSpeaker = some name
    · exact Or.inl (by simp [updateMetrics, han])
    · rcases (h'.2 hne).2 with hact | hact
      · exact Or.inl (by simp [updateMetrics, han, hact])
      · refine Or.inr ?_
        show (if e.ctx.activeSpeaker = some name then none else e.ctx.activeSpeaker) =
          e.ctx.turnOrder[e.ctx.turnIndex]?
        rw [if_neg han]
        exact hact
  | SET_TALK_TIME name seconds =>
    cases hget : ttGet e.ctx.talkTime name with
    | none =>
      simp only [send, hget]
      exact h
    | some oldVal =>
      simp only [send, hget]
      exact fun hst => h hst
  | SET_SILENCE seconds => exact fun hst => h hst
  | FORCE_STATE st => exact turnInv_setState _ _ h

theorem turnInv_reachable (e : Engine) (h : Reachable e) : TurnInv e := by
  induction h with
  | init speakers aOv tOv =>
    intro hst
    exact DiscussionState.noConfusion hst
  | step e' ev _ ih => exact turnInv_send e' ev ih

/-- Claim C4 counterexample: the claimed invariant fails in reachable
structured states: forcing STRUCTURED with no speakers gives
`turnIndex = 0 = turnOrder.length` (so the strict bound fails), and
SILENCE inside structured mode clears `activeSpeaker` while
`turnOrder[turnIndex]` still names A. -/
theorem C4_counterexample_structured_invariant :
    (emptyStructuredRun.state = DiscussionState.STRUCTURED ∧
      ¬ emptyStructuredRun.ctx.turnIndex < emptyStructuredRun.ctx.turnOrder.length) ∧
    (silencedStructuredRun.state = DiscussionState.STRUCTURED ∧
      silencedStructuredRun.ctx.turnOrder ≠ [] ∧
      silencedStructuredRun.ctx.activeSpeaker = none ∧
      silencedStructuredRun.ctx.turnOrder[silencedStructuredRun.ctx.turnIndex]? =
        some "A") := by
  with_unfolding_all decide

/-- Claim C4 (amended): in every reachable engine state whose phase is
STRUCTURED_TURN_TAKING, `turnIndex` is 0 when `turnOrder` is empty,
`turnIndex < turnOrder.length` when it is not, and `activeSpeaker` is
either null or equal to `turnOrder[turnIndex]`. -/
theorem C4_structured_turn_invariant (e : Engine) (hre : Reachable e)
    (hst : e.state = DiscussionState.STRUCTURED) :
    (e.ctx.turnOrder = [] → e.ctx.turnIndex = 0) ∧
    (e.ctx.turnOrder ≠ [] →
      e.ctx.turnIndex < e.ctx.turnOrder.length ∧
      (e.ctx.activeSpeaker = none ∨
        e.ctx.activeSpeaker = e.ctx.turnOrder[e.ctx.turnIndex]?)) :=
  turnInv_reachable e hre hst

/-- Claim C4 witness: the amended invariant on a concrete reachable
structured engine. -/
theorem C4_structured_turn_invariant_witness :
    (structuredABRun.ctx.turnOrder = [] → structuredABRun.ctx.turnIndex = 0) ∧
    (structuredABRun.ctx.turnOrder ≠ [] →
      structuredABRun.ctx.turnIndex < structuredABRun.ctx.turnOrder.length ∧
      (structuredABRun.ctx.activeSpeaker = none ∨
        structuredABRun.ctx.activeSpeaker =
          structuredABRun.ctx.turnOrder[structuredABRun.ctx.turnIndex]?)) :=
  C4_structured_turn_invariant structuredABRun
    (Reachable.step _ _ (Reachable.init ["A", "B"] none none))
    (by with_unfolding_all decide)

/-- Claim C10: REMOVE_SPEAKER never modifies `turnOrder` or `turnIndex`;
consequently, after removing B while structured (turn order [A, B],
index 0), a NEXT_TURN lands on B and sets `activeSpeaker` to B even
though B is no longer a member of `speakers`. -/
theorem C10_remove_speaker_stale_turn_order :
    (∀ (e : Engine) (name : String),
      (send e (DiscussionEvent.REMOVE_SPEAKER name)).ctx.turnOrder = e.ctx.turnOrder ∧
      (send e (DiscussionEvent.REMOVE_SPEAKER name)).ctx.turnIndex = e.ctx.turnIndex) ∧
    (removedTurnRun.state = DiscussionState.STRUCTURED ∧
      removedTurnRun.ctx.turnOrder = ["A", "B"] ∧
      removedTurnRun.ctx.turnIndex = 1 ∧
      removedTurnRun.ctx.activeSpeaker = some "B" ∧
      "B" ∉ removedTurnRun.ctx.speakers) := by
  constructor
  · intro e name
    exact ⟨rfl, rfl⟩
  · with_unfolding_all decide

/-! ### Clock monotonicity -/

theorem setState_totalSeconds (e : Engine) (st : DiscussionState) :
    (setState e st).ctx.totalSeconds = e.ctx.totalSeconds ∨
    ((setState e st).state = DiscussionState.MONITORING ∧
      (setState e st).ctx.totalSeconds = 0) := by
  unfold setState
  by_cases he : e.state = st
  · rw [if_pos he]
    exact Or.inl rfl
  · rw [if_neg he]
    cases st with
    | MONITORING =>
      by_cases hc : e.state = DiscussionState.CHECKIN
      · simp only [hc, if_pos rfl]
        exact Or.inr ⟨rfl, rfl⟩
      · simp only [if_neg hc]
        exact Or.inl rfl
    | IMBALANCE => exact Or.inl rfl
    | NUDGE => exact Or.inl rfl
    | STRUCTURED => exact Or.inl rfl
    | PAUSE => exact Or.inl rfl
    | CHECKIN => exact Or.inl rfl

theorem nextTurn_totalSeconds (e : Engine) :
    (nextTurn e).ctx.totalSeconds = e.ctx.totalSeconds ∨
    ((nextTurn e).state = DiscussionState.MONITORING ∧
      (nextTurn e).ctx.totalSeconds = 0) := by
  unfold nextTurn
  by_cases hs : e.state ≠ DiscussionState.STRUCTURED
  · rw [if_pos hs]
    exact Or.inl rfl
  · rw [if_neg hs]
    by_cases hl :
        ({ e with ctx := { e.ctx with turnIndex := e.ctx.turnIndex + 1 }} :
          Engine).ctx.turnOrder.length ≤ e.ctx.turnIndex + 1
    · rw [if_pos hl]
      exact setState_totalSeconds _ _
    · rw [if_neg hl]
      exact Or.inl rfl

theorem autoAdvance_totalSeconds (e : Engine) :
    (autoAdvanceIfNeeded e).ctx.totalSeconds = e.ctx.totalSeconds ∨
    ((autoAdvanceIfNeeded e).state = DiscussionState.MONITORING ∧
      (autoAdvanceIfNeeded e).ctx.totalSeconds = 0) := by
  unfold autoAdvanceIfNeeded
  by_cases ha : e.ctx.autoMode = false
  · rw [if_pos ha]
    exact Or.inl (by trivial)
  · rw [if_neg ha]
    cases hs : e.state with
    | MONITORING =>
      by_cases hq : e.ctx.quietMode = true
      · simp only [if_pos hq]
        exact Or.inl (by trivial)
      · simp only [if_neg hq]
        by_cases hf : e.ctx.imbalanceFlag = true
        · simp only [if_pos hf]
          by_cases hh : e.ctx.imbalanceHoldSeconds ≤
              e.ctx.totalSeconds - (e.ctx.imbalanceSince.getD e.ctx.totalSeconds)
          · simp only [if_pos hh]
            exact setState_totalSeconds _ _
          · simp only [if_neg hh]
            exact Or.inl (by trivial)
        · simp only [if_neg hf]
          exact Or.inl (by trivial)
    | IMBALANCE =>
      by_cases hh : 15 ≤ e.ctx.totalSeconds - e.ctx.stateSince
      · simp only [if_pos hh]; exact setState_totalSeconds _ _
      · simp only [if_neg hh]; exact Or.inl (by trivial)
    | NUDGE =>
      by_cases hh : e.ctx.nudgeHoldSeconds ≤ e.ctx.totalSeconds - e.ctx.stateSince
      · simp only [if_pos hh]; exact setState_totalSeconds _ _
      · simp only [if_neg hh]; exact Or.inl (by trivial)
    | STRUCTURED =>
      by_cases hh : 0 < e.ctx.turnOrder.length ∧
          e.ctx.turnHoldSeconds ≤ e.ctx.totalSeconds - e.ctx.turnSince
      · simp only [if_pos hh]; exact nextTurn_totalSeconds _
      · simp only [if_neg hh]; exact Or.inl (by trivial)
    | PAUSE =>
      by_cases hh : 20 ≤ e.ctx.totalSeconds - e.ctx.stateSince
      · simp only [if_pos hh]; exact setState_totalSeconds _ _
      · simp only [if_neg hh]; exact Or.inl (by trivial)
    | CHECKIN =>
      by_cases hh : 20 ≤ e.ctx.totalSeconds - e.ctx.stateSince
      · simp only [if_pos hh]; exact setState_totalSeconds _ _
      · simp only [if_neg hh]; exact Or.inl (by trivial)

theorem applyTick_totalSeconds (c : EngineContext) (dt : ℚ) :
    (applyTick c dt).totalSeconds = c.totalSeconds + dt := by
  simp only [applyTick]
  split
  · split <;> rfl
  · rfl

/-- Claim C9 counterexample: `totalSeconds` is not monotone: an engine in
CHECK_IN at `totalSeconds = 20` drops back to 0 when a FORCE_STATE event
re-enters MONITORING. -/
theorem C9_counterexample_clock_reset :
    checkinAt20Run.state = DiscussionState.CHECKIN ∧
    checkinAt20Run.ctx.totalSeconds = 20 ∧
    (send checkinAt20Run (DiscussionEvent.FORCE_STATE DiscussionState.MONITORING)
      ).ctx.totalSeconds = 0 := by
  with_unfolding_all decide

/-- Claim C9 (amended): for every engine state and every single event
whose TICK payload, if any, is nonnegative, `totalSeconds` does not
decrease across `send` — except that a transition entering MONITORING
(the CHECK_IN → MONITORING reset) may set it to 0. -/
theorem C9_total_seconds_monotone (e : Engine) (ev : DiscussionEvent)
    (hev : TickNonneg ev) :
    e.ctx.totalSeconds ≤ (send e ev).ctx.totalSeconds ∨
    ((send e ev).state = DiscussionState.MONITORING ∧
      (send e ev).ctx.totalSeconds = 0) := by
  cases ev with
  | SPEAKER_SET name =>
    simp only [send]
    by_cases hs : e.state = DiscussionState.STRUCTURED
    · rw [if_pos hs]
      cases hidx : indexOfName e.ctx.turnOrder name with
      | none => exact Or.inl (le_of_eq rfl)
      | some idx => exact Or.inl (le_of_eq rfl)
    · rw [if_neg hs]
      exact Or.inl (le_of_eq rfl)
  | SILENCE => exact Or.inl (le_of_eq rfl)
  | TICK dt =>
    have hdt : (0 : ℚ) ≤ dt := hev
    have h1 : (updateMetrics { e with ctx := applyTick e.ctx dt }).ctx.totalSeconds =
        e.ctx.totalSeconds + dt := applyTick_totalSeconds e.ctx dt
    rcases autoAdvance_totalSeconds (updateMetrics { e with ctx := applyTick e.ctx dt })
      with h2 | h2
    · refine Or.inl ?_
      show e.ctx.totalSeconds ≤
        (autoAdvanceIfNeeded (updateMetrics { e with ctx := applyTick e.ctx dt })
          ).ctx.totalSeconds
      rw [h2, h1]
      linarith
    · exact Or.inr h2
  | NEXT_TURN =>
    rcases nextTurn_totalSeconds e with h1 | h1
    · exact Or.inl (le_of_eq h1.symm)
    · exact Or.inr h1
  | SET_QUIET_SPEAKER name => exact Or.inl (le_of_eq rfl)
  | SET_AUTO_MODE b => exact Or.inl (le_of_eq rfl)
  | SET_QUIET_MODE b => exact Or.inl (le_of_eq rfl)
  | TURNS_COMPLETE => exact Or.inl (le_of_eq rfl)
  | PAUSE_DONE => exact Or.inl (le_of_eq rfl)
  | CHECKIN b => exact Or.inl (le_of_eq rfl)
  | ADD_SPEAKER name =>
    by_cases hmem : name ∈ e.ctx.speakers
    · simp only [send, if_pos hmem]
      exact Or.inl (le_of_eq rfl)
    · simp only [send, if_neg hmem]
      exact Or.inl (le_of_eq rfl)
  | REMOVE_SPEAKER name => exact Or.inl (le_of_eq rfl)
  | SET_TALK_TIME name seconds =>
    cases hget : ttGet e.ctx.talkTime name with
    | none =>
      simp only [send, hget]
      exact Or.inl (le_of_eq rfl)
    | some oldVal =>
      simp only [send, hget]
      exact Or.inl (le_of_eq rfl)
  | SET_SILENCE seconds => exact Or.inl (le_of_eq rfl)
  | FORCE_STATE st =>
    rcases setState_totalSeconds e st with h1 | h1
    · exact Or.inl (le_of_eq h1.symm)
    · exact Or.inr h1

/-- Claim C9 witness: the amended monotonicity at a fresh engine taking
one 3-second tick. -/
theorem C9_total_seconds_monotone_witness :
    (construct ["A"] none none).ctx.totalSeconds ≤
      (send (construct ["A"] none none) (DiscussionEvent.TICK 3)).ctx.totalSeconds ∨
    ((send (construct ["A"] none none) (DiscussionEvent.TICK 3)).state =
        DiscussionState.MONITORING ∧
      (send (construct ["A"] none none) (DiscussionEvent.TICK 3)).ctx.totalSeconds = 0) :=
  C9_total_seconds_monotone (construct ["A"] none none) (DiscussionEvent.TICK 3)
    (by show (0 : ℚ) ≤ 3; norm_num)

/-! ### TICK semantics -/

theorem isTalking_set_totalSeconds (c : EngineContext) (x : ℚ) :
    isTalking { c with totalSeconds := x } = isTalking c := rfl

/-- Claim C7 counterexample: SPEAKER_SET outside structured mode accepts
the unknown name B without a membership check, but the following TICK
then treats the conversation as silence: nothing is added to B's talk
time or to `totalTalkTime`, and `silenceSeconds` accrues instead, contrary
to the claim's reading that any active speaker accrues talk time. -/
theorem C7_counterexample_unknown_active_speaker :
    unknownActiveRun.ctx.activeSpeaker = some "B" ∧
    ttGet unknownActiveRun.ctx.talkTime "B" = none ∧
    unknownActiveRun.ctx.totalSeconds = 5 ∧
    unknownActiveRun.ctx.totalTalkTime = 0 ∧
    unknownActiveRun.ctx.silenceSeconds = 5 ∧
    unknownActiveRun.ctx.currentMonologueSeconds = 0 := by
  with_unfolding_all decide

/-- Claim C7 (amended): the direct TICK mutation (before the metrics
recompute and autonomous advance that complete the handler) advances
`totalSeconds` by the payload; if the active speaker is a non-empty name
with a talk-time entry, the payload is added to that entry, to
`totalTalkTime` and to `currentMonologueSeconds` and `silenceSeconds`
resets to 0; otherwise — including an active name with no talk-time
entry — the payload is added to `silenceSeconds` and
`currentMonologueSeconds` resets to 0. -/
theorem C7_tick_semantics :
    (∀ (e : Engine) (dt : ℚ), send e (DiscussionEvent.TICK dt) =
      autoAdvanceIfNeeded (updateMetrics { e with ctx := applyTick e.ctx dt })) ∧
    (∀ (c : EngineContext) (dt : ℚ), (applyTick c dt).totalSeconds = c.totalSeconds + dt) ∧
    (∀ (c : EngineContext) (dt : ℚ) (n : String),
      isTalking c = true → c.activeSpeaker = some n →
      ttGet (applyTick c dt).talkTime n = some ((ttGet c.talkTime n).getD 0 + dt) ∧
      (applyTick c dt).totalTalkTime = c.totalTalkTime + dt ∧
      (applyTick c dt).currentMonologueSeconds = c.currentMonologueSeconds + dt ∧
      (applyTick c dt).silenceSeconds = 0) ∧
    (∀ (c : EngineContext) (dt : ℚ), isTalking c = false →
      (applyTick c dt).talkTime = c.talkTime ∧
      (applyTick c dt).totalTalkTime = c.totalTalkTime ∧
      (applyTick c dt).silenceSeconds = c.silenceSeconds + dt ∧
      (applyTick c dt).currentMonologueSeconds = 0) := by
  refine ⟨fun e dt => rfl, applyTick_totalSeconds, ?_, ?_⟩
  · intro c dt n ht han
    have ht' : isTalking { c with totalSeconds := c.totalSeconds + dt } = true := ht
    simp only [applyTick]
    rw [if_pos ht',
      show ({ c with totalSeconds := c.totalSeconds + dt } :
        EngineContext).activeSpeaker = some n from han]
    refine ⟨?_, rfl, rfl, rfl⟩
    have := ttGet_ttSet c.talkTime n ((ttGet c.talkTime n).getD 0 + dt) n
    rw [if_pos rfl] at this
    exact this
  · intro c dt ht
    have ht' : ¬ (isTalking { c with totalSeconds := c.totalSeconds + dt } = true) := by
      intro hh
      rw [show isTalking { c with totalSeconds := c.totalSeconds + dt } = isTalking c
        from rfl, ht] at hh
      exact Bool.false_ne_true hh
    simp only [applyTick]
    rw [if_neg ht']
    exact ⟨rfl, rfl, rfl, rfl⟩

/-- Claim C7 witness: the amended TICK semantics at a concrete talking
context and a concrete silent context. -/
theorem C7_tick_semantics_witness :
    (ttGet (applyTick { (construct ["A"] none none).ctx with
        activeSpeaker := some "A" } 2).talkTime "A" =
      some ((ttGet { (construct ["A"] none none).ctx with
        activeSpeaker := some "A" }.talkTime "A").getD 0 + 2)) ∧
    (applyTick (construct ["A"] none none).ctx 2).silenceSeconds =
      (construct ["A"] none none).ctx.silenceSeconds + 2 :=
  ⟨(C7_tick_semantics.2.2.1 { (construct ["A"] none none).ctx with
      activeSpeaker := some "A" } 2 "A" (by with_unfolding_all decide) rfl).1,
   (C7_tick_semantics.2.2.2 (construct ["A"] none none).ctx 2
      (by with_unfolding_all decide)).2.2.1⟩

/-! ### Inapplicable events -/

/-- Claim C8 counterexample: SPEAKER_SET with a name absent from
`turnOrder` while structured is not a complete no-op: it still resets
`currentMonologueSeconds` (1 becomes 0) because the monologue reset runs
before the membership check. -/
theorem C8_counterexample_speaker_set_resets_monologue :
    structuredTickRun.state = DiscussionState.STRUCTURED ∧
    indexOfName structuredTickRun.ctx.turnOrder "Z" = none ∧
    structuredTickRun.ctx.currentMonologueSeconds = 1 ∧
    (send structuredTickRun (DiscussionEvent.SPEAKER_SET "Z")
      ).ctx.currentMonologueSeconds = 0 ∧
    send structuredTickRun (DiscussionEvent.SPEAKER_SET "Z") ≠ structuredTickRun := by
  with_unfolding_all decide

/-- Claim C8 (amended): SET_TALK_TIME with an unknown name, NEXT_TURN
outside STRUCTURED_TURN_TAKING, and the reserved tags TURNS_COMPLETE,
PAUSE_DONE and CHECKIN are complete no-ops; SPEAKER_SET with a name
absent from `turnOrder` while structured leaves everything unchanged
except `currentMonologueSeconds`, which resets to 0 whenever the name
differs from the current active speaker. -/
theorem C8_inapplicable_events :
    (∀ (e : Engine) (name : String) (seconds : ℚ),
      ttGet e.ctx.talkTime name = none →
      send e (DiscussionEvent.SET_TALK_TIME name seconds) = e) ∧
    (∀ e : Engine, e.state ≠ DiscussionState.STRUCTURED →
      send e DiscussionEvent.NEXT_TURN = e) ∧
    (∀ (e : Engine) (name : String), e.state = DiscussionState.STRUCTURED →
      indexOfName e.ctx.turnOrder name = none →
      send e (DiscussionEvent.SPEAKER_SET name) =
        { e with ctx := { e.ctx with currentMonologueSeconds :=
            if e.ctx.activeSpeaker ≠ some name then 0
            else e.ctx.currentMonologueSeconds } }) ∧
    (∀ e : Engine, send e DiscussionEvent.TURNS_COMPLETE = e) ∧
    (∀ e : Engine, send e DiscussionEvent.PAUSE_DONE = e) ∧
    (∀ (e : Engine) (b : Bool), send e (DiscussionEvent.CHECKIN b) = e) := by
  refine ⟨?_, ?_, ?_, fun e => rfl, fun e => rfl, fun e b => rfl⟩
  · intro e name seconds h
    simp only [send, h]
  · intro e h
    show nextTurn e = e
    unfold nextTurn
    rw [if_pos h]
  · intro e name hs hidx
    simp only [send, if_pos hs, hidx]

/-- Claim C8 witness: the no-op theorem instantiated on a fresh engine,
which is in MONITORING and knows no speaker B. -/
theorem C8_inapplicable_events_witness :
    send (construct ["A"] none none) (DiscussionEvent.SET_TALK_TIME "B" 7) =
      construct ["A"] none none ∧
    send (construct ["A"] none none) DiscussionEvent.NEXT_TURN =
      construct ["A"] none none :=
  ⟨C8_inapplicable_events.1 (construct ["A"] none none) "B" 7
      (by with_unfolding_all decide),
   C8_inapplicable_events.2.1 (construct ["A"] none none)
      (by with_unfolding_all decide)⟩

/-! ### Metrics freshness -/

theorem computeFlag_structured (c : EngineContext) (score : ℚ) :
    computeFlag DiscussionState.STRUCTURED c score = false := by
  simp [computeFlag]

theorem metricsFresh_updateMetrics (e : Engine) : MetricsFresh (updateMetrics e) :=
  ⟨rfl, rfl⟩

theorem metricsFresh_setState (e : Engine) (st : DiscussionState)
    (h : MetricsFresh e) : MetricsFresh (setState e st) := by
  unfold setState
  by_cases he : e.state = st
  · rw [if_pos he]
    exact h
  · rw [if_neg he]
    exact metricsFresh_updateMetrics _

theorem metricsFresh_nextTurn (e : Engine) (h : MetricsFresh e) :
    MetricsFresh (nextTurn e) := by
  unfold nextTurn
  by_cases hs : e.state ≠ DiscussionState.STRUCTURED
  · rw [if_pos hs]
    exact h
  · rw [if_neg hs]
    push_neg at hs
    by_cases hl :
        ({ e with ctx := { e.ctx with turnIndex := e.ctx.turnIndex + 1 }} :
          Engine).ctx.turnOrder.length ≤ e.ctx.turnIndex + 1
    · rw [if_pos hl]
      refine metricsFresh_setState _ _ ?_
      exact ⟨h.1, h.2⟩
    · rw [if_neg hl]
      refine ⟨h.1, ?_⟩
      have hflag : e.ctx.imbalanceFlag = false := by
        rw [h.2, hs, computeFlag_structured]
      show e.ctx.imbalanceFlag =
        computeFlag e.state _ e.ctx.dominanceScore
      rw [hflag, hs, computeFlag_structured]

theorem metricsFresh_autoAdvance (e : Engine) (h : MetricsFresh e) :
    MetricsFresh (autoAdvanceIfNeeded e) := by
  unfold autoAdvanceIfNeeded
  by_cases ha : e.ctx.autoMode = false
  · rw [if_pos ha]
    exact h
  · rw [if_neg ha]
    cases hs : e.state with
    | MONITORING =>
      have h2 := h.2
      rw [hs] at h2
      by_cases hq : e.ctx.quietMode = true
      · simp only [if_pos hq]
        exact ⟨h.1, h2⟩
      · simp only [if_neg hq]
        by_cases hf : e.ctx.imbalanceFlag = true
        · simp only [if_pos hf]
          by_cases hh : e.ctx.imbalanceHoldSeconds ≤
              e.ctx.totalSeconds - (e.ctx.imbalanceSince.getD e.ctx.totalSeconds)
          · simp only [if_pos hh]
            exact metricsFresh_setState _ _ ⟨h.1, h2⟩
          · simp only [if_neg hh]
            exact ⟨h.1, h2⟩
        · simp only [if_neg hf]
          exact ⟨h.1, h2⟩
    | IMBALANCE =>
      by_cases hh : 15 ≤ e.ctx.totalSeconds - e.ctx.stateSince
      · simp only [if_pos hh]; exact metricsFresh_setState _ _ h
      · simp only [if_neg hh]; exact h
    | NUDGE =>
      by_cases hh : e.ctx.nudgeHoldSeconds ≤ e.ctx.totalSeconds - e.ctx.stateSince
      · simp only [if_pos hh]; exact metricsFresh_setState _ _ h
      · simp only [if_neg hh]; exact h
    | STRUCTURED =>
      by_cases hh : 0 < e.ctx.turnOrder.length ∧
          e.ctx.turnHoldSeconds ≤ e.ctx.totalSeconds - e.ctx.turnSince
      · simp only [if_pos hh]; exact metricsFresh_nextTurn _ h
      · simp only [if_neg hh]; exact h
    | PAUSE =>
      by_cases hh : 20 ≤ e.ctx.totalSeconds - e.ctx.stateSince
      · simp only [if_pos hh]; exact metricsFresh_setState _ _ h
      · simp only [if_neg hh]; exact h
    | CHECKIN =>
      by_cases hh : 20 ≤ e.ctx.totalSeconds - e.ctx.stateSince
      · simp only [if_pos hh]; exact metricsFresh_setState _ _ h
      · simp only [if_neg hh]; exact h

/-- Claim C6 counterexample: SPEAKER_SET does not recompute metrics.
After balanced talk times and a 16-second monologue by A (flag true via
the monologue rule), SPEAKER_SET{B} resets the monologue but leaves
`imbalanceFlag` stale at true, although recomputing the claimed formula
in the reached MONITORING state (score below threshold, monologue 0,
past grace, quiet off) yields false. -/
theorem C6_counterexample_stale_flag_after_speaker_set :
    staleFlagRun.state = DiscussionState.MONITORING ∧
    staleFlagRun.ctx.quietMode = false ∧
    ¬ staleFlagRun.ctx.totalSeconds < 15 ∧
    staleFlagRun.ctx.dominanceScore < staleFlagRun.ctx.imbalanceScoreThreshold ∧
    staleFlagRun.ctx.currentMonologueSeconds < 15 ∧
    staleFlagRun.ctx.imbalanceFlag = true ∧
    computeFlag staleFlagRun.state staleFlagRun.ctx
      staleFlagRun.ctx.dominanceScore = false := by
  with_unfolding_all decide

/-- Claim C6 (amended): after every event whose handler recomputes
metrics — TICK, SET_QUIET_MODE, SET_SILENCE, REMOVE_SPEAKER, an
ADD_SPEAKER that adds, a SET_TALK_TIME whose name is known, and a
FORCE_STATE that changes phase — the stored `dominanceScore` equals a
fresh `calculateDominance` and `imbalanceFlag` equals the claimed
formula; SPEAKER_SET, SILENCE, SET_QUIET_SPEAKER and SET_AUTO_MODE do
not recompute and can leave `imbalanceFlag` stale. -/
theorem C6_metrics_recomputed (e : Engine) (ev : DiscussionEvent)
    (hev : RecomputingEvent e ev) :
    (send e ev).ctx.dominanceScore =
      calculateDominance (send e ev).ctx.talkTime (send e ev).ctx.speakers
        (send e ev).ctx.totalTalkTime ∧
    (send e ev).ctx.imbalanceFlag =
      computeFlag (send e ev).state (send e ev).ctx
        (send e ev).ctx.dominanceScore := by
  show MetricsFresh (send e ev)
  cases ev with
  | TICK dt =>
    exact metricsFresh_autoAdvance _ (metricsFresh_updateMetrics _)
  | SET_QUIET_MODE b => exact metricsFresh_updateMetrics _
  | SET_SILENCE seconds => exact metricsFresh_updateMetrics _
  | REMOVE_SPEAKER name => exact metricsFresh_updateMetrics _
  | ADD_SPEAKER name =>
    have hmem : name ∉ e.ctx.speakers := hev
    simp only [send, if_neg hmem]
    exact metricsFresh_updateMetrics _
  | SET_TALK_TIME name seconds =>
    have hsome : (ttGet e.ctx.talkTime name).isSome = true := hev
    obtain ⟨v, hv⟩ := Option.isSome_iff_exists.mp hsome
    simp only [send, hv]
    exact metricsFresh_updateMetrics _
  | FORCE_STATE st =>
    have hne : st ≠ e.state := hev
    show MetricsFresh (setState e st)
    unfold setState
    rw [if_neg (fun hh => hne hh.symm)]
    exact metricsFresh_updateMetrics _
  | SPEAKER_SET name => exact absurd hev (by simp [RecomputingEvent])
  | SILENCE => exact absurd hev (by simp [RecomputingEvent])
  | NEXT_TURN => exact absurd hev (by simp [RecomputingEvent])
  | SET_QUIET_SPEAKER name => exact absurd hev (by simp [RecomputingEvent])
  | SET_AUTO_MODE b => exact absurd hev (by simp [RecomputingEvent])
  | TURNS_COMPLETE => exact absurd hev (by simp [RecomputingEvent])
  | PAUSE_DONE => exact absurd hev (by simp [RecomputingEvent])
  | CHECKIN b => exact absurd hev (by simp [RecomputingEvent])

/-- Claim C6 witness: freshness after a concrete TICK on a fresh
engine. -/
theorem C6_metrics_recomputed_witness :
    (send (construct ["A"] none none) (DiscussionEvent.TICK 1)).ctx.dominanceScore =
      calculateDominance
        (send (construct ["A"] none none) (DiscussionEvent.TICK 1)).ctx.talkTime
        (send (construct ["A"] none none) (DiscussionEvent.TICK 1)).ctx.speakers
        (send (construct ["A"] none none) (DiscussionEvent.TICK 1)).ctx.totalTalkTime ∧
    (send (construct ["A"] none none) (DiscussionEvent.TICK 1)).ctx.imbalanceFlag =
      computeFlag (send (construct ["A"] none none) (DiscussionEvent.TICK 1)).state
        (send (construct ["A"] none none) (DiscussionEvent.TICK 1)).ctx
        (send (construct ["A"] none none) (DiscussionEvent.TICK 1)).ctx.dominanceScore :=
  C6_metrics_recomputed (construct ["A"] none none) (DiscussionEvent.TICK 1) trivial

end DiscussionFlow
